import Mathlib

/-!
Verification of the Deliveroo reconciliation engine
(`implementation/deliveroo/DR02_data_reconciliation.py`).

The Python module is a pure batch computation over two materialized tables:
the Deliveroo combined line items (`dr_df`) and the warehouse extract
(`dwh_df`).  We embed the parts exercised by the matching, propagation and
variance-classification logic:

* monetary fields are exact rationals (`Rat`); the loaders coerce
  unparseable numerics to `0.0` via `fillna(0)`, so no NaN survives into
  the fields we model;
* timestamps and day buckets are `Option Int` (a `none` stands for a
  pandas `NaT` / unparseable timestamp; `pd.isna` on it is true);
* a DataFrame is a list of records, row order preserved.
-/

namespace DR02

/-- One row of the Deliveroo combined table, restricted to the columns the
reconciliation logic reads.  `accounting_category` separates
"Order Value & Commission" / "Additional Fees" / "Additional Payments"
rows; `order_last4`, `mfc_name`, `delivery_date` are the composite match
key prepared by `load_dr_combined`. -/
structure DrRow where
  order_number : String
  accounting_category : String
  order_last4 : String
  mfc_name : String
  delivery_date : Option Int
  dr_delivery_ts : Option Int
  order_value_gross : Rat
  marketing_offer_discount : Rat
  adjustment_gross : Rat
deriving Repr, DecidableEq

/-- One row of the warehouse (DWH) extract, restricted to the columns used
for matching.  `order_completed` models the `order_completed == 1`
eligibility filter. -/
structure DwhRow where
  idx : Nat
  gp_order_id : String
  mp_order_id : String
  location_name : String
  created_at_day : Option Int
  post_promo_sales_inc_vat : Rat
  created_at_ts : Option Int
  delivered_at_ts : Option Int
  order_completed : Bool
deriving Repr, DecidableEq

def orderCategoryLabel : String := "Order Value & Commission"

def feeCategoryLabel : String := "Additional Fees"

/-- `orders_df = dr_df[dr_df["accounting_category"] == "Order Value & Commission"]`. -/
def orderRows (rows : List DrRow) : List DrRow :=
  rows.filter (fun r => r.accounting_category == orderCategoryLabel)

/-- `fees_df = dr_df[dr_df["accounting_category"] == "Additional Fees"]`. -/
def feeRows (rows : List DrRow) : List DrRow :=
  rows.filter (fun r => r.accounting_category == feeCategoryLabel)

/-- One row of the output of `aggregate_order_values`: one aggregated
record per Order-category input row. -/
structure AggRow where
  order_number : String
  order_last4 : String
  mfc_name : String
  delivery_date : Option Int
  gross_order_value : Rat
  unavailable_items_adjustment : Rat
  net_sales_value : Rat
  has_refund : Bool
deriving Repr, DecidableEq

/-- Sum of `adjustment_gross` over the given fee rows that carry order
number `n`; this is the `fees_df.groupby("order_number")` aggregate that
gets merged onto each order row. -/
def feeSumOver (fees : List DrRow) (n : String) : Rat :=
  ((fees.filter (fun f => f.order_number == n)).map
    (fun f => f.adjustment_gross)).sum

/-- `aggregate_order_values`: for each Order-category row compute
`gross_order_value = order_value_gross + marketing_offer_discount`,
merge in the summed `Additional Fees` adjustments for the same
`order_number` (absent fee rows become `0` via `fillna(0)`), and set
`net_sales_value = gross_order_value + unavailable_items_adjustment`,
`has_refund = unavailable_items_adjustment != 0`.  An empty Order-row set
yields the empty table. -/
def aggregate_order_values (rows : List DrRow) : List AggRow :=
  (orderRows rows).map (fun o =>
    let gross := o.order_value_gross + o.marketing_offer_discount
    let adj := feeSumOver (feeRows rows) o.order_number
    { order_number := o.order_number
      order_last4 := o.order_last4
      mfc_name := o.mfc_name
      delivery_date := o.delivery_date
      gross_order_value := gross
      unavailable_items_adjustment := adj
      net_sales_value := gross + adj
      has_refund := adj != 0 })

/-- A DWH candidate as stored in the `dwh_lookup` lists. -/
structure Candidate where
  idx : Nat
  gp_order_id : String
  dwh_value : Rat
  created_at_ts : Option Int
  delivered_at_ts : Option Int
deriving Repr, DecidableEq

/-- The row filter applied while building `dwh_lookup`: only completed
orders (`dwh_completed`) with a nonempty `mp_order_id`/`location_name`
and `mp_order_id != "nan"` are indexed. -/
def dwhEligible (r : DwhRow) : Bool :=
  r.order_completed && r.mp_order_id != "" && r.location_name != "" &&
    r.mp_order_id != "nan"

def toCandidate (r : DwhRow) : Candidate :=
  { idx := r.idx
    gp_order_id := r.gp_order_id
    dwh_value := r.post_promo_sales_inc_vat
    created_at_ts := r.created_at_ts
    delivered_at_ts := r.delivered_at_ts }

/-- `dwh_lookup.get((last4, mfc, date), [])`: the eligible DWH rows whose
key components equal the query, in table order. -/
def candidatesFor (dwh : List DwhRow) (last4 mfc : String) (d : Option Int) :
    List Candidate :=
  (dwh.filter (fun r =>
    dwhEligible r && r.mp_order_id == last4 && r.location_name == mfc &&
      r.created_at_day == d)).map toCandidate

/-- `buffer_hours=1` after `delivered_at_timestamp`, in seconds. -/
def bufferSeconds : Int := 3600

/-- Python's `abs` on an exact rational (kept executable so concrete runs
reduce inside the kernel). -/
def ratAbs (q : Rat) : Rat := if q < 0 then -q else q

lemma ratAbs_eq_abs (q : Rat) : ratAbs q = |q| := by
  unfold ratAbs
  split_ifs with h
  · exact (abs_of_neg h).symm
  · exact (abs_of_nonneg (not_lt.mp h)).symm

lemma ratAbs_nonneg (q : Rat) : 0 ≤ ratAbs q := ratAbs_eq_abs q ▸ abs_nonneg q

/-- The candidate filter inside `_resolve_collision_by_timestamp`: keep a
candidate when both its timestamps parsed and
`created_at_ts <= dr_delivery_ts <= delivered_at_ts + buffer`; a candidate
with a missing timestamp is skipped (`continue`). -/
def timestampSurvivors (drTs : Int) (candidates : List Candidate) :
    List Candidate :=
  candidates.filter (fun c =>
    match c.created_at_ts, c.delivered_at_ts with
    | some ct, some dt => decide (ct ≤ drTs) && decide (drTs ≤ dt + bufferSeconds)
    | _, _ => false)

/-- `_resolve_collision_by_timestamp`. -/
def resolve_collision_by_timestamp (drTs : Option Int)
    (candidates : List Candidate) : Option Candidate × String :=
  match drTs with
  | none => (none, "NO_DR_TIMESTAMP")
  | some t =>
    match timestampSurvivors t candidates with
    | [m] => (some m, "MATCHED_BY_TIMESTAMP")
    | [] => (none, "NO_TIMESTAMP_MATCH")
    | _ :: _ :: _ => (none, "MULTIPLE_TIMESTAMP_MATCHES")

/-- `tolerance=0.10` of `_resolve_collision_by_value`. -/
def valueTolerance : Rat := 1/10

/-- The best-candidate loop of `_resolve_collision_by_value`: scan the
candidates keeping the first one whose `abs(dwh_value - dr_value)` is
strictly smaller than the best so far. -/
def bestByValueGo (v : Rat) : Option (Candidate × Rat) → List Candidate →
    Option (Candidate × Rat)
  | acc, [] => acc
  | acc, c :: cs =>
    let diff := ratAbs (c.dwh_value - v)
    match acc with
    | none => bestByValueGo v (some (c, diff)) cs
    | some (b, bd) =>
      bestByValueGo v (if diff < bd then some (c, diff) else some (b, bd)) cs

def bestByValue (v : Rat) (cs : List Candidate) : Option (Candidate × Rat) :=
  bestByValueGo v none cs

/-- `_resolve_collision_by_value`: accept the closest candidate when its
difference is under the absolute tolerance, or under 1% of its value
(guarded by `dwh_value > 0`). -/
def resolve_collision_by_value (drValue : Rat) (candidates : List Candidate) :
    Option Candidate × String :=
  match bestByValue drValue candidates with
  | none => (none, "NO_VALUE_MATCH")
  | some (b, bd) =>
    if bd < valueTolerance ∨ (b.dwh_value > 0 ∧ bd / b.dwh_value < 1/100) then
      (some b, "MATCHED_BY_VALUE")
    else
      (none, "NO_VALUE_MATCH")

/-- The value stored in `match_results[order_number]` for one aggregated
order (restricted to the fields the later steps read; `dwh_value` and
`gp_order_id` stand for the propagated `dwh_*` columns). -/
structure MatchInfo where
  matched : Bool
  gp_order_id : Option String
  dwh_value : Option Rat
  order_category : String
  match_status : String
  match_confidence : String
  cross_midnight : Bool
  net_sales_value : Rat
  gross_order_value : Rat
  unavailable_items_adjustment : Rat
deriving Repr, DecidableEq

/-- The `confidence_map` dictionary (with its `.get(..., "Unknown")` default). -/
def confidenceMap (status : String) : String :=
  if status == "MATCHED" then "High"
  else if status == "MATCHED_CROSS_MIDNIGHT" then "High (Cross-Midnight)"
  else if status == "MATCHED_BY_TIMESTAMP" then "Medium (Timestamp)"
  else if status == "MATCHED_BY_VALUE" then "Low (Value)"
  else if status == "NO_DWH_RECORD" then "N/A"
  else if status == "COLLISION" then "Ambiguous"
  else "Unknown"

/-- The mutable loop state: the `match_results` dict (as an insertion-order
association list; a later insert for the same key wins on lookup) and the
`used_dwh_ids` set. -/
structure MatchState where
  results : List (String × MatchInfo)
  used : List String
deriving Repr, DecidableEq

/-- `order_timestamps = orders_df.set_index("order_number")["dr_delivery_ts"].to_dict()`:
per order number, the delivery timestamp of the last Order row carrying it
(`to_dict` keeps the last occurrence); a dict miss gives `None`. -/
def orderTs (rows : List DrRow) (n : String) : Option Int :=
  match ((orderRows rows).filter (fun o => o.order_number == n)).getLast? with
  | some o => o.dr_delivery_ts
  | none => none

/-- Candidates for a key with the already-claimed `gp_order_id`s removed:
`[c for c in candidates if c["gp_order_id"] not in used_dwh_ids]`. -/
def availableFor (dwh : List DwhRow) (used : List String) (last4 mfc : String)
    (d : Option Int) : List Candidate :=
  (candidatesFor dwh last4 mfc d).filter
    (fun c => !(used.contains c.gp_order_id))

/-- `prev_date = dr_date - timedelta(days=1)` (a missing date stays
missing: `NaT - timedelta` is `NaT`). -/
def prevDay : Option Int → Option Int
  | some d => some (d - 1)
  | none => none

/-- The value-stage tail of the collision branch: try
`_resolve_collision_by_value`, otherwise record an unresolved `COLLISION`. -/
def valueStageOutcome (netValue : Rat) (available : List Candidate) :
    Option Candidate × String :=
  match resolve_collision_by_value netValue available with
  | (some c, _) => (some c, "MATCHED_BY_VALUE")
  | (none, _) => (none, "COLLISION")

/-- The collision branch (`len(available) >= 2`): timestamp resolution
first, then the value fallback. -/
def resolveCollision (drTs : Option Int) (netValue : Rat)
    (available : List Candidate) : Option Candidate × String :=
  match resolve_collision_by_timestamp drTs available with
  | (some c, _) => (some c, "MATCHED_BY_TIMESTAMP")
  | (none, _) => valueStageOutcome netValue available

/-- The cardinality branch of the per-order matching logic. -/
def matchOutcome (drTs : Option Int) (netValue : Rat) (crossMidnight : Bool)
    (available : List Candidate) : Option Candidate × String :=
  match available with
  | [] => (none, "NO_DWH_RECORD")
  | [c] => (some c, if crossMidnight then "MATCHED_CROSS_MIDNIGHT" else "MATCHED")
  | _ :: _ :: _ => resolveCollision drTs netValue available

/-- Store one outcome: an accepted candidate adds its `gp_order_id` to
`used_dwh_ids` and records a matched `MatchInfo`; otherwise a
`Not Matched` record is stored and the used-set is unchanged. -/
def commitOutcome (st : MatchState) (a : AggRow) (crossMidnight : Bool)
    (outcome : Option Candidate × String) : MatchState :=
  match outcome with
  | (some c, status) =>
    { results := st.results ++ [(a.order_number,
        { matched := true
          gp_order_id := some c.gp_order_id
          dwh_value := some c.dwh_value
          order_category :=
            if a.has_refund then "Matched (Grouped)" else "Matched"
          match_status := status
          match_confidence := confidenceMap status
          cross_midnight := crossMidnight
          net_sales_value := a.net_sales_value
          gross_order_value := a.gross_order_value
          unavailable_items_adjustment := a.unavailable_items_adjustment })]
      used := st.used ++ [c.gp_order_id] }
  | (none, status) =>
    { results := st.results ++ [(a.order_number,
        { matched := false
          gp_order_id := none
          dwh_value := none
          order_category := "Not Matched"
          match_status := status
          match_confidence := confidenceMap status
          cross_midnight := crossMidnight
          net_sales_value := a.net_sales_value
          gross_order_value := a.gross_order_value
          unavailable_items_adjustment := a.unavailable_items_adjustment })]
      used := st.used }

/-- `candidates = dwh_lookup.get(key, [])` filtered by the used-set. -/
def sameDayAvail (dwh : List DwhRow) (used : List String) (a : AggRow) :
    List Candidate :=
  availableFor dwh used a.order_last4 a.mfc_name a.delivery_date

/-- The previous-day candidates filtered by the used-set. -/
def prevDayAvail (dwh : List DwhRow) (used : List String) (a : AggRow) :
    List Candidate :=
  availableFor dwh used a.order_last4 a.mfc_name (prevDay a.delivery_date)

/-- `available` after the cross-midnight fallback. -/
def availableChosen (dwh : List DwhRow) (used : List String) (a : AggRow) :
    List Candidate :=
  if (sameDayAvail dwh used a).isEmpty then prevDayAvail dwh used a
  else sameDayAvail dwh used a

/-- `cross_midnight` is set only when the same-day lookup was empty and
the previous-day lookup produced something. -/
def crossMidnightFlag (dwh : List DwhRow) (used : List String) (a : AggRow) :
    Bool :=
  (sameDayAvail dwh used a).isEmpty && !(prevDayAvail dwh used a).isEmpty

/-- One iteration of the matching loop over `agg_df_sorted`: same-day
lookup, previous-day (cross-midnight) fallback when nothing is available,
then the cardinality branch. -/
def stepOrder (dwh : List DwhRow) (rows : List DrRow) (st : MatchState)
    (a : AggRow) : MatchState :=
  commitOutcome st a (crossMidnightFlag dwh st.used a)
    (matchOutcome (orderTs rows a.order_number) a.net_sales_value
      (crossMidnightFlag dwh st.used a) (availableChosen dwh st.used a))

/-- Sort key of `agg_df.sort_values("delivery_date")`: ascending by the
date bucket with missing dates last (`na_position="last"`). -/
def dateKeyLt : Option Int → Option Int → Bool
  | some a, some b => a < b
  | some _, none => true
  | none, _ => false

/-- Stable insertion of an aggregated row: it goes before the first row
whose date is not strictly smaller, so equal dates keep input order. -/
def insertByDate (a : AggRow) : List AggRow → List AggRow
  | [] => [a]
  | b :: bs =>
    if dateKeyLt b.delivery_date a.delivery_date then b :: insertByDate a bs
    else a :: b :: bs

/-- `agg_df_sorted = agg_df.sort_values("delivery_date")` as a stable sort
ascending by `delivery_date` (missing dates last). -/
def sortValuesByDeliveryDate : List AggRow → List AggRow
  | [] => []
  | a :: as' => insertByDate a (sortValuesByDeliveryDate as')

/-- The whole matching loop of `match_deliveroo_orders` (step 4): fold the
sorted aggregated orders through `stepOrder`, starting from an empty
`match_results` dict and an empty used-set. -/
def runMatchLoop (drRows : List DrRow) (dwhRows : List DwhRow) : MatchState :=
  (sortValuesByDeliveryDate (aggregate_order_values drRows)).foldl
    (stepOrder dwhRows drRows) ⟨[], []⟩

/-- `match_results[order_num]` lookup during propagation: the last insert
for the key wins (Python dict assignment semantics). -/
def lookupResult (results : List (String × MatchInfo)) (n : String) :
    Option MatchInfo :=
  ((results.filter (fun p => p.1 == n)).getLast?).map (fun p => p.2)

/-- One output row of `match_deliveroo_orders` (step 5): the original row
plus the propagated match columns. `dwh_post_promo_sales_inc_vat` is
`some` exactly when the row received `dwh_data` (its order matched);
pandas reads a missing cell of that column as NaN/0 later. -/
structure AnnotatedRow where
  row : DrRow
  order_category : String
  match_status : String
  match_confidence : String
  net_sales_value : Rat
  gross_order_value : Rat
  unavailable_items_adjustment : Rat
  dwh_post_promo_sales_inc_vat : Option Rat
deriving Repr, DecidableEq

/-- Step 5 of `match_deliveroo_orders`: annotate one original row from
`match_results`. -/
def propagateRow (results : List (String × MatchInfo)) (r : DrRow) :
    AnnotatedRow :=
  match lookupResult results r.order_number with
  | some info =>
    if info.matched then
      if r.accounting_category == orderCategoryLabel then
        { row := r
          order_category := info.order_category
          match_status := info.match_status
          match_confidence := info.match_confidence
          net_sales_value := info.net_sales_value
          gross_order_value := info.gross_order_value
          unavailable_items_adjustment := info.unavailable_items_adjustment
          dwh_post_promo_sales_inc_vat := info.dwh_value }
      else
        { row := r
          order_category := "Linked to Order"
          match_status := "LINKED"
          match_confidence := "Inherited"
          net_sales_value := info.net_sales_value
          gross_order_value := info.gross_order_value
          unavailable_items_adjustment := info.unavailable_items_adjustment
          dwh_post_promo_sales_inc_vat := info.dwh_value }
    else
      { row := r
        order_category :=
          if r.accounting_category == orderCategoryLabel then "Not Matched"
          else "Linked to Unmatched"
        match_status := info.match_status
        match_confidence := info.match_confidence
        net_sales_value := info.net_sales_value
        gross_order_value := info.gross_order_value
        unavailable_items_adjustment := info.unavailable_items_adjustment
        dwh_post_promo_sales_inc_vat := none }
  | none =>
    { row := r
      order_category := "Standalone Adjustment"
      match_status := "N/A"
      match_confidence := "N/A"
      net_sales_value := 0
      gross_order_value := 0
      unavailable_items_adjustment := 0
      dwh_post_promo_sales_inc_vat := none }

/-- `"dwh_post_promo_sales_inc_vat" in result_df.columns`: the column
exists exactly when some row received `dwh_data`. -/
def hasDwhColumn (rows : List AnnotatedRow) : Bool :=
  rows.any (fun r => r.dwh_post_promo_sales_inc_vat.isSome)

def isMatchedCat (c : String) : Bool :=
  c == "Matched" || c == "Matched (Grouped)"

/-- The high-variance mask of step 6: matched rows whose
`abs(net - dwh) / net * 100` exceeds 20 (rows with `net <= 0` get a
variance percentage of 0). -/
def reviewFlag (r : AnnotatedRow) : Bool :=
  let netVal := r.net_sales_value
  let dwhVal := r.dwh_post_promo_sales_inc_vat.getD 0
  let variancePct : Rat :=
    if netVal > 0 then ratAbs (netVal - dwhVal) / netVal * 100 else 0
  isMatchedCat r.order_category && decide (variancePct > 20)

/-- Step 6 of `match_deliveroo_orders`: when the `dwh_post_promo` column
exists, append `" - Review"` to `match_confidence` on the flagged rows. -/
def reviewStep (rows : List AnnotatedRow) : List AnnotatedRow :=
  if hasDwhColumn rows then
    rows.map (fun r =>
      if reviewFlag r then
        { r with match_confidence := r.match_confidence ++ " - Review" }
      else r)
  else rows

/-- Steps 2-6 of `match_deliveroo_orders` on a nonempty Order-row set. -/
def annotatedRowsOf (drRows : List DrRow) (dwhRows : List DwhRow) :
    List AnnotatedRow :=
  reviewStep (drRows.map (propagateRow (runMatchLoop drRows dwhRows).results))

/-- The early return of `match_deliveroo_orders` when `orders_df.empty`:
the original rows with just `order_category="No Orders"` and
`match_status="N/A"` added. -/
structure NoOrdersRow where
  row : DrRow
  order_category : String
  match_status : String
deriving Repr, DecidableEq

/-- The result table of `match_deliveroo_orders`: either the early "no
orders" table or the fully annotated one. -/
inductive MatchResultDf where
  | noOrders (rows : List NoOrdersRow)
  | full (rows : List AnnotatedRow)
deriving Repr, DecidableEq

/-- `match_deliveroo_orders`. -/
def match_deliveroo_orders (drRows : List DrRow) (dwhRows : List DwhRow) :
    MatchResultDf :=
  if (orderRows drRows).isEmpty then
    .noOrders (drRows.map (fun r =>
      { row := r, order_category := "No Orders", match_status := "N/A" }))
  else
    .full (annotatedRowsOf drRows dwhRows)

/-- `np.round` / pandas `.round` halfway rule: round half to even. -/
def roundHalfEven (q : Rat) : Int :=
  let f := q.floor
  let r := q - f
  if r < 1/2 then f
  else if r > 1/2 then f + 1
  else if f % 2 == 0 then f else f + 1

/-- `.round(2)`: two-decimal rounding, half to even. -/
def round2 (q : Rat) : Rat := (roundHalfEven (q * 100) : Rat) / 100

/-- `amount_variance = (net_val.round(2) - dwh_val.round(2)).round(2)`. -/
def amountVariance (netVal dwhVal : Rat) : Rat :=
  round2 (round2 netVal - round2 dwhVal)

/-- The classification masks of `calculate_variances` on a matched row, as
a function of the absolute variance; returns
`(matched_amount, variance_explanation)`. -/
def varianceLabels (absV : Rat) : String × String :=
  if absV < 2/100 then ("Exact Match", "Exact Match")
  else if absV < 10/100 then ("Exact Match", "Rounding")
  else if absV < 1 then ("Minor Variance", "Minor Variance")
  else ("Value Variance", "Unexplained Variance")

/-- One output row of `calculate_variances`. -/
structure VarianceRow where
  base : AnnotatedRow
  amount_variance : Rat
  matched_amount : String
  variance_explanation : String
deriving Repr, DecidableEq

/-- The per-row effect of `calculate_variances` when the DWH column is
present: compute `amount_variance`, classify matched rows by the fixed
thresholds, overwrite linked rows with the `"Linked"` /
`"See Parent Order"` markers, keep the `"N/A"` initialisation elsewhere,
and zero `amount_variance` on rows that are neither matched nor linked. -/
def classifyRow (r : AnnotatedRow) : VarianceRow :=
  let v := amountVariance r.net_sales_value (r.dwh_post_promo_sales_inc_vat.getD 0)
  let labels :=
    if isMatchedCat r.order_category then varianceLabels (ratAbs v)
    else if r.order_category == "Linked to Order" then ("Linked", "See Parent Order")
    else ("N/A", "N/A")
  let keepVariance :=
    isMatchedCat r.order_category || (r.order_category == "Linked to Order")
  { base := r
    amount_variance := if keepVariance then v else 0
    matched_amount := labels.1
    variance_explanation := labels.2 }

/-- `calculate_variances` (on the fully annotated table): the
`dwh_post_promo_sales_inc_vat` column is present exactly when some row
matched; without it every row gets `amount_variance=0` and the
`"No DWH Value"` marker. -/
def calculate_variances (rows : List AnnotatedRow) : List VarianceRow :=
  if hasDwhColumn rows then rows.map classifyRow
  else rows.map (fun r =>
    { base := r
      amount_variance := 0
      matched_amount := "No DWH Value"
      variance_explanation := "N/A" })

/-! ### Helper lemmas about the collision resolvers -/

lemma mem_timestampSurvivors {t : Int} {cs : List Candidate} {c : Candidate} :
    c ∈ timestampSurvivors t cs ↔ c ∈ cs ∧
      ∃ ct dt, c.created_at_ts = some ct ∧ c.delivered_at_ts = some dt ∧
        ct ≤ t ∧ t ≤ dt + bufferSeconds := by
  unfold timestampSurvivors
  rw [List.mem_filter]
  refine and_congr_right fun _ => ?_
  rcases hct : c.created_at_ts with _ | ct <;>
    rcases hdt : c.delivered_at_ts with _ | dt <;> simp

lemma timestampSurvivors_subset {t : Int} {cs : List Candidate} :
    ∀ c ∈ timestampSurvivors t cs, c ∈ cs := fun _ hc =>
  (mem_timestampSurvivors.mp hc).1

lemma pairEq_fst {α β : Type} {a c : α} {b d : β} (h : (a, b) = (c, d)) :
    a = c := congrArg Prod.fst h

lemma pairEq_snd {α β : Type} {a c : α} {b d : β} (h : (a, b) = (c, d)) :
    b = d := congrArg Prod.snd h

lemma resolve_collision_by_timestamp_mem {drTs : Option Int}
    {cs : List Candidate} {c : Candidate} {s : String}
    (h : resolve_collision_by_timestamp drTs cs = (some c, s)) :
    ∃ t, drTs = some t ∧ c ∈ timestampSurvivors t cs ∧
      s = "MATCHED_BY_TIMESTAMP" := by
  rcases drTs with _ | t
  · exact absurd (pairEq_fst h) (by simp)
  · refine ⟨t, rfl, ?_⟩
    have h' : (match timestampSurvivors t cs with
        | [m] => ((some m : Option Candidate), "MATCHED_BY_TIMESTAMP")
        | [] => ((none : Option Candidate), "NO_TIMESTAMP_MATCH")
        | _ :: _ :: _ =>
          ((none : Option Candidate), "MULTIPLE_TIMESTAMP_MATCHES")) =
        ((some c : Option Candidate), s) := h
    rcases hs : timestampSurvivors t cs with _ | ⟨m, _ | ⟨m2, l⟩⟩ <;>
      rw [hs] at h'
    · exact absurd (pairEq_fst h') (by simp)
    · obtain rfl := Option.some.inj (pairEq_fst h')
      exact ⟨hs ▸ List.mem_singleton_self m, (pairEq_snd h').symm⟩
    · exact absurd (pairEq_fst h') (by simp)

lemma bestByValueGo_sound (v : Rat) (S : List Candidate) :
    ∀ (cs : List Candidate) (acc : Option (Candidate × Rat)),
      (∀ x ∈ cs, x ∈ S) →
      (∀ b bd, acc = some (b, bd) → b ∈ S ∧ bd = ratAbs (b.dwh_value - v)) →
      ∀ b bd, bestByValueGo v acc cs = some (b, bd) →
        b ∈ S ∧ bd = ratAbs (b.dwh_value - v) := by
  intro cs
  induction cs with
  | nil => exact fun acc _ hacc b bd h => hacc b bd h
  | cons c cs ih =>
    intro acc hsub hacc b bd h
    have hsub' : ∀ x ∈ cs, x ∈ S := fun x hx =>
      hsub x (List.mem_cons_of_mem c hx)
    have hcS : c ∈ S := hsub c (List.mem_cons_self c cs)
    rcases acc with _ | ⟨b0, bd0⟩
    · rw [show bestByValueGo v none (c :: cs) =
          bestByValueGo v (some (c, ratAbs (c.dwh_value - v))) cs from rfl] at h
      refine ih _ hsub' ?_ b bd h
      intro b1 bd1 h1
      simp only [Option.some.injEq, Prod.mk.injEq] at h1
      obtain ⟨rfl, rfl⟩ := h1
      exact ⟨hcS, rfl⟩
    · rw [show bestByValueGo v (some (b0, bd0)) (c :: cs) =
          bestByValueGo v (if ratAbs (c.dwh_value - v) < bd0 then
            some (c, ratAbs (c.dwh_value - v)) else some (b0, bd0)) cs from rfl] at h
      refine ih _ hsub' ?_ b bd h
      intro b1 bd1 h1
      split_ifs at h1
      · simp only [Option.some.injEq, Prod.mk.injEq] at h1
        obtain ⟨rfl, rfl⟩ := h1
        exact ⟨hcS, rfl⟩
      · simp only [Option.some.injEq, Prod.mk.injEq] at h1
        obtain ⟨rfl, rfl⟩ := h1
        exact hacc _ _ rfl

lemma bestByValueGo_min (v : Rat) :
    ∀ (cs : List Candidate) (acc : Option (Candidate × Rat)) (b : Candidate)
      (bd : Rat), bestByValueGo v acc cs = some (b, bd) →
      (∀ c ∈ cs, bd ≤ ratAbs (c.dwh_value - v)) ∧
      (∀ b0 bd0, acc = some (b0, bd0) → bd ≤ bd0) := by
  intro cs
  induction cs with
  | nil =>
    intro acc b bd h
    refine ⟨fun c hc => absurd hc (List.not_mem_nil c), fun b0 bd0 h0 => ?_⟩
    rw [h0] at h
    rw [show bestByValueGo v (some (b0, bd0)) [] = some (b0, bd0) from rfl] at h
    simp only [Option.some.injEq, Prod.mk.injEq] at h
    exact le_of_eq h.2.symm
  | cons c cs ih =>
    intro acc b bd h
    rcases acc with _ | ⟨b0, bd0⟩
    · rw [show bestByValueGo v none (c :: cs) =
          bestByValueGo v (some (c, ratAbs (c.dwh_value - v))) cs from rfl] at h
      have := ih _ b bd h
      refine ⟨fun x hx => ?_, fun b1 bd1 h1 => by simp at h1⟩
      rcases List.mem_cons.mp hx with rfl | hx
      · exact this.2 x (ratAbs (x.dwh_value - v)) rfl
      · exact this.1 x hx
    · rw [show bestByValueGo v (some (b0, bd0)) (c :: cs) =
          bestByValueGo v (if ratAbs (c.dwh_value - v) < bd0 then
            some (c, ratAbs (c.dwh_value - v)) else some (b0, bd0)) cs from rfl] at h
      split_ifs at h with hlt
      · have := ih _ b bd h
        have hbc : bd ≤ ratAbs (c.dwh_value - v) := this.2 c (ratAbs (c.dwh_value - v)) rfl
        refine ⟨fun x hx => ?_, fun b1 bd1 h1 => ?_⟩
        · rcases List.mem_cons.mp hx with rfl | hx
          · exact hbc
          · exact this.1 x hx
        · simp only [Option.some.injEq, Prod.mk.injEq] at h1
          obtain ⟨rfl, rfl⟩ := h1
          exact le_of_lt (lt_of_le_of_lt hbc hlt)
      · have := ih _ b bd h
        have hb0 : bd ≤ bd0 := this.2 b0 bd0 rfl
        refine ⟨fun x hx => ?_, fun b1 bd1 h1 => ?_⟩
        · rcases List.mem_cons.mp hx with rfl | hx
          · exact le_trans hb0 (not_lt.mp hlt)
          · exact this.1 x hx
        · simp only [Option.some.injEq, Prod.mk.injEq] at h1
          obtain ⟨rfl, rfl⟩ := h1
          exact hb0

lemma bestByValue_spec {v : Rat} {cs : List Candidate} {b : Candidate}
    {bd : Rat} (h : bestByValue v cs = some (b, bd)) :
    b ∈ cs ∧ bd = ratAbs (b.dwh_value - v) ∧ ∀ c ∈ cs, bd ≤ ratAbs (c.dwh_value - v) := by
  have h1 := bestByValueGo_sound v cs cs none (fun x hx => hx)
    (fun b0 bd0 h0 => by simp at h0) b bd h
  exact ⟨h1.1, h1.2, (bestByValueGo_min v cs none b bd h).1⟩

lemma resolve_collision_by_value_mem {v : Rat} {cs : List Candidate}
    {c : Candidate} {s : String}
    (h : resolve_collision_by_value v cs = (some c, s)) :
    c ∈ cs ∧ s = "MATCHED_BY_VALUE" := by
  unfold resolve_collision_by_value at h
  split at h
  · exact absurd (pairEq_fst h) (by simp)
  next b bd hbv =>
    split_ifs at h
    · obtain rfl := Option.some.inj (pairEq_fst h)
      exact ⟨(bestByValue_spec hbv).1, (pairEq_snd h).symm⟩
    · exact absurd (pairEq_fst h) (by simp)

lemma valueStageOutcome_mem {v : Rat} {cs : List Candidate} {c : Candidate}
    {s : String} (h : valueStageOutcome v cs = (some c, s)) : c ∈ cs := by
  unfold valueStageOutcome at h
  split at h
  next c0 s0 hv =>
    obtain rfl := Option.some.inj (pairEq_fst h)
    exact (resolve_collision_by_value_mem hv).1
  next s0 hv => exact absurd (pairEq_fst h) (by simp)

lemma resolveCollision_mem {drTs : Option Int} {v : Rat} {cs : List Candidate}
    {c : Candidate} {s : String}
    (h : resolveCollision drTs v cs = (some c, s)) : c ∈ cs := by
  unfold resolveCollision at h
  split at h
  next c0 s0 hts =>
    obtain rfl := Option.some.inj (pairEq_fst h)
    obtain ⟨t, _, hmem, _⟩ := resolve_collision_by_timestamp_mem hts
    exact timestampSurvivors_subset _ hmem
  next s0 hts => exact valueStageOutcome_mem h

lemma matchOutcome_mem {drTs : Option Int} {v : Rat} {cm : Bool}
    {available : List Candidate} {c : Candidate} {s : String}
    (h : matchOutcome drTs v cm available = (some c, s)) : c ∈ available := by
  unfold matchOutcome at h
  split at h
  · exact absurd (pairEq_fst h) (by simp)
  next x =>
    obtain rfl := Option.some.inj (pairEq_fst h)
    exact List.mem_singleton_self x
  next x y l => exact resolveCollision_mem h

lemma resolve_collision_by_timestamp_none {t : Int} {cs : List Candidate}
    (h : (timestampSurvivors t cs).length ≠ 1) :
    (resolve_collision_by_timestamp (some t) cs).1 = none := by
  have h' : resolve_collision_by_timestamp (some t) cs =
      (match timestampSurvivors t cs with
        | [m] => ((some m : Option Candidate), "MATCHED_BY_TIMESTAMP")
        | [] => ((none : Option Candidate), "NO_TIMESTAMP_MATCH")
        | _ :: _ :: _ =>
          ((none : Option Candidate), "MULTIPLE_TIMESTAMP_MATCHES")) := rfl
  rcases hs : timestampSurvivors t cs with _ | ⟨m, _ | ⟨m2, l⟩⟩ <;>
    rw [hs] at h'
  · rw [h']
  · rw [hs] at h
    simp at h
  · rw [h']

lemma resolveCollision_of_ts_none {drTs : Option Int} {v : Rat}
    {cs : List Candidate} (h : (resolve_collision_by_timestamp drTs cs).1 = none) :
    resolveCollision drTs v cs = valueStageOutcome v cs := by
  unfold resolveCollision
  rcases hts : resolve_collision_by_timestamp drTs cs with ⟨oc, s0⟩
  rw [hts] at h
  simp only at h
  subst h
  rfl

/-- C6: for a collision, timestamp resolution keeps exactly the candidates
whose window `[created_at_ts, delivered_at_ts + 1h]` contains the order's
delivery timestamp; a unique survivor is matched with status
`MATCHED_BY_TIMESTAMP`, and with zero or several survivors no timestamp
match is made and the collision branch proceeds to the value stage. -/
theorem c6_timestamp_resolution (t : Int) (v : Rat) (cs : List Candidate)
    (hcol : 2 ≤ cs.length) :
    (∀ c ∈ cs, (c ∈ timestampSurvivors t cs ↔
      ∃ ct dt, c.created_at_ts = some ct ∧ c.delivered_at_ts = some dt ∧
        ct ≤ t ∧ t ≤ dt + bufferSeconds)) ∧
    (∀ c, timestampSurvivors t cs = [c] →
      resolve_collision_by_timestamp (some t) cs =
        (some c, "MATCHED_BY_TIMESTAMP") ∧
      resolveCollision (some t) v cs = (some c, "MATCHED_BY_TIMESTAMP")) ∧
    ((timestampSurvivors t cs).length ≠ 1 →
      (resolve_collision_by_timestamp (some t) cs).1 = none ∧
      resolveCollision (some t) v cs = valueStageOutcome v cs) := by
  refine ⟨fun c hc => ?_, fun c hone => ?_, fun hlen => ?_⟩
  · rw [mem_timestampSurvivors]
    exact and_iff_right hc
  · have hr : resolve_collision_by_timestamp (some t) cs =
        (some c, "MATCHED_BY_TIMESTAMP") := by
      have h' : resolve_collision_by_timestamp (some t) cs =
          (match timestampSurvivors t cs with
            | [m] => ((some m : Option Candidate), "MATCHED_BY_TIMESTAMP")
            | [] => ((none : Option Candidate), "NO_TIMESTAMP_MATCH")
            | _ :: _ :: _ =>
              ((none : Option Candidate), "MULTIPLE_TIMESTAMP_MATCHES")) := rfl
      rw [hone] at h'
      exact h'
    refine ⟨hr, ?_⟩
    unfold resolveCollision
    rw [hr]
  · have h1 := resolve_collision_by_timestamp_none hlen
    exact ⟨h1, resolveCollision_of_ts_none h1⟩

/-- Witness for `c6_timestamp_resolution`: two same-key candidates, the
order's timestamp inside exactly the second one's window. -/
theorem c6_timestamp_resolution_witness :
    (2 ≤ ([⟨0, "G1", 10, some 100, some 200⟩,
      ⟨1, "G2", 11, some 40, some 60⟩] : List Candidate).length) ∧
    resolveCollision (some 50) 10
      [⟨0, "G1", 10, some 100, some 200⟩, ⟨1, "G2", 11, some 40, some 60⟩] =
      (some ⟨1, "G2", 11, some 40, some 60⟩, "MATCHED_BY_TIMESTAMP") := by
  refine ⟨by decide, ?_⟩
  exact ((c6_timestamp_resolution 50 10
    [⟨0, "G1", 10, some 100, some 200⟩, ⟨1, "G2", 11, some 40, some 60⟩]
    (by decide)).2.1 ⟨1, "G2", 11, some 40, some 60⟩ (by decide)).2

/-- C10: a candidate without a parseable created-at or delivered-at
timestamp is silently excluded from the window test and can never be the
timestamp-stage result; an order without a parseable delivery timestamp
makes the timestamp stage return nothing, and the collision branch falls
through to value resolution. -/
theorem c10_missing_timestamps :
    (∀ (t : Int) (cs : List Candidate) (c : Candidate), c ∈ cs →
      c.created_at_ts = none ∨ c.delivered_at_ts = none →
      c ∉ timestampSurvivors t cs ∧
      (resolve_collision_by_timestamp (some t) cs).1 ≠ some c) ∧
    (∀ (v : Rat) (cs : List Candidate),
      resolve_collision_by_timestamp none cs = (none, "NO_DR_TIMESTAMP") ∧
      resolveCollision none v cs = valueStageOutcome v cs) := by
  constructor
  · intro t cs c _ hnone
    have hnot : c ∉ timestampSurvivors t cs := by
      rw [mem_timestampSurvivors]
      rintro ⟨_, ct, dt, hct, hdt, _⟩
      rcases hnone with hn | hn <;> simp [hn] at hct hdt
    refine ⟨hnot, fun hres => ?_⟩
    rcases hr : resolve_collision_by_timestamp (some t) cs with ⟨oc, s0⟩
    rw [hr] at hres
    simp only at hres
    subst hres
    obtain ⟨t', ht', hmem, _⟩ := resolve_collision_by_timestamp_mem hr
    obtain rfl := Option.some.inj ht'
    exact hnot hmem
  · intro v cs
    refine ⟨rfl, resolveCollision_of_ts_none ?_⟩
    rfl

/-- Witness for `c10_missing_timestamps`: a candidate with no delivered-at
timestamp is never kept, and a missing order timestamp sends the concrete
collision straight to the value stage. -/
theorem c10_missing_timestamps_witness :
    (⟨0, "G1", 10, some 0, none⟩ : Candidate) ∉
      timestampSurvivors 50 [⟨0, "G1", 10, some 0, none⟩, ⟨1, "G2", 11, some 40, some 60⟩] ∧
    resolveCollision none 10
      [⟨0, "G1", 10, some 0, none⟩, ⟨1, "G2", 11, some 40, some 60⟩] =
      valueStageOutcome 10
        [⟨0, "G1", 10, some 0, none⟩, ⟨1, "G2", 11, some 40, some 60⟩] :=
  ⟨(c10_missing_timestamps.1 50
      [⟨0, "G1", 10, some 0, none⟩, ⟨1, "G2", 11, some 40, some 60⟩]
      ⟨0, "G1", 10, some 0, none⟩ (by decide) (Or.inr rfl)).1,
   (c10_missing_timestamps.2 10
      [⟨0, "G1", 10, some 0, none⟩, ⟨1, "G2", 11, some 40, some 60⟩]).2⟩

lemma onePercent_iff {bd d : Rat} (hbd : 0 ≤ bd) :
    (d > 0 ∧ bd / d < 1/100) ↔ bd < d / 100 := by
  constructor
  · rintro ⟨hd, hlt⟩
    rw [div_lt_iff hd] at hlt
    rw [lt_div_iff (by norm_num : (0:Rat) < 100)]
    linarith
  · intro hlt
    have hd : 0 < d := by
      by_contra hneg
      have : d / 100 ≤ 0 := by
        apply div_nonpos_of_nonpos_of_nonneg (not_lt.mp hneg) (by norm_num)
      linarith
    refine ⟨hd, ?_⟩
    rw [div_lt_iff hd]
    rw [lt_div_iff (by norm_num : (0:Rat) < 100)] at hlt
    linarith

/-- C5: value resolution selects the candidate numerically closest to the
order's net value and accepts it exactly when the difference is below the
absolute tolerance 0.10 or below 1% of that candidate's value; otherwise
nothing is assigned and the collision stays unresolved (`COLLISION`).  In
particular net value 88.50 against candidate values 12.00 and 88.52 picks
the 88.52 candidate with status `MATCHED_BY_VALUE`. -/
theorem c5_value_resolution (v : Rat) (drTs : Option Int) (cs : List Candidate)
    (b : Candidate) (bd : Rat) (hb : bestByValue v cs = some (b, bd)) :
    b ∈ cs ∧ bd = ratAbs (b.dwh_value - v) ∧ (∀ c ∈ cs, bd ≤ ratAbs (c.dwh_value - v)) ∧
    (resolve_collision_by_value v cs = (some b, "MATCHED_BY_VALUE") ↔
      bd < 1/10 ∨ bd < b.dwh_value / 100) ∧
    (¬(bd < 1/10 ∨ bd < b.dwh_value / 100) →
      resolve_collision_by_value v cs = (none, "NO_VALUE_MATCH") ∧
      ((resolve_collision_by_timestamp drTs cs).1 = none →
        resolveCollision drTs v cs = (none, "COLLISION"))) ∧
    (∀ c1 c2 : Candidate, c1.dwh_value = 12 → c2.dwh_value = 8852/100 →
      resolve_collision_by_value (885/10) [c1, c2] =
        (some c2, "MATCHED_BY_VALUE")) := by
  obtain ⟨hmem, hbd, hmin⟩ := bestByValue_spec hb
  have hbd0 : 0 ≤ bd := hbd ▸ ratAbs_nonneg _
  have hcond : (bd < valueTolerance ∨ (b.dwh_value > 0 ∧ bd / b.dwh_value < 1/100))
      ↔ (bd < 1/10 ∨ bd < b.dwh_value / 100) := by
    unfold valueTolerance
    exact or_congr Iff.rfl (onePercent_iff hbd0)
  have hval : resolve_collision_by_value v cs =
      (if bd < valueTolerance ∨ (b.dwh_value > 0 ∧ bd / b.dwh_value < 1/100) then
        ((some b : Option Candidate), "MATCHED_BY_VALUE")
      else ((none : Option Candidate), "NO_VALUE_MATCH")) := by
    unfold resolve_collision_by_value
    rw [hb]
  refine ⟨hmem, hbd, hmin, ?_, ?_, ?_⟩
  · rw [hval]
    constructor
    · intro hres
      by_contra hno
      rw [if_neg (fun hc => hno (hcond.mp hc))] at hres
      exact absurd (pairEq_fst hres) (by simp)
    · intro hc
      rw [if_pos (hcond.mpr hc)]
  · intro hno
    have hres : resolve_collision_by_value v cs = (none, "NO_VALUE_MATCH") := by
      rw [hval, if_neg (fun hc => hno (hcond.mp hc))]
    refine ⟨hres, fun hts => ?_⟩
    rw [resolveCollision_of_ts_none hts]
    unfold valueStageOutcome
    rw [hres]
  · intro c1 c2 h1 h2
    have e1 : ratAbs (c1.dwh_value - 885/10) = (765/10 : Rat) := by
      rw [h1, show (12 : Rat) - 885/10 = -(765/10) by norm_num]
      unfold ratAbs
      rw [if_pos (by norm_num : -(765/10 : Rat) < 0)]
      norm_num
    have e2 : ratAbs (c2.dwh_value - 885/10) = (2/100 : Rat) := by
      rw [h2, show (8852/100 : Rat) - 885/10 = 2/100 by norm_num]
      unfold ratAbs
      rw [if_neg (by norm_num : ¬((2/100 : Rat) < 0))]
    have hbv : bestByValue (885/10) [c1, c2] = some (c2, 2/100) := by
      rw [show bestByValue (885/10) [c1, c2] =
        bestByValueGo (885/10) (some (c1, ratAbs (c1.dwh_value - 885/10))) [c2] from rfl]
      rw [show bestByValueGo (885/10) (some (c1, ratAbs (c1.dwh_value - 885/10))) [c2] =
        bestByValueGo (885/10)
          (if ratAbs (c2.dwh_value - 885/10) < ratAbs (c1.dwh_value - 885/10) then
            some (c2, ratAbs (c2.dwh_value - 885/10))
          else some (c1, ratAbs (c1.dwh_value - 885/10))) [] from rfl]
      rw [e1, e2, if_pos (by norm_num : (2/100 : Rat) < 765/10)]
      rfl
    unfold resolve_collision_by_value
    rw [hbv]
    show (if (2/100 : Rat) < valueTolerance ∨
        (c2.dwh_value > 0 ∧ (2/100 : Rat) / c2.dwh_value < 1/100) then
      ((some c2 : Option Candidate), "MATCHED_BY_VALUE")
    else ((none : Option Candidate), "NO_VALUE_MATCH")) =
      ((some c2 : Option Candidate), "MATCHED_BY_VALUE")
    rw [if_pos (Or.inl (by norm_num [valueTolerance]))]

unseal Rat.add Rat.inv Rat.mul Rat.sub in
/-- Witness for `c5_value_resolution` at the spec's concrete collision. -/
theorem c5_value_resolution_witness :
    bestByValue (885/10)
      [⟨0, "G1", 12, none, none⟩, ⟨1, "G2", 8852/100, none, none⟩] =
      some (⟨1, "G2", 8852/100, none, none⟩, 2/100) ∧
    resolve_collision_by_value (885/10)
      [⟨0, "G1", 12, none, none⟩, ⟨1, "G2", 8852/100, none, none⟩] =
      (some ⟨1, "G2", 8852/100, none, none⟩, "MATCHED_BY_VALUE") := by
  have hb : bestByValue (885/10)
      [⟨0, "G1", 12, none, none⟩, ⟨1, "G2", 8852/100, none, none⟩] =
      some (⟨1, "G2", 8852/100, none, none⟩, 2/100) := by decide
  refine ⟨hb, ?_⟩
  exact (c5_value_resolution (885/10) none
    [⟨0, "G1", 12, none, none⟩, ⟨1, "G2", 8852/100, none, none⟩]
    ⟨1, "G2", 8852/100, none, none⟩ (2/100) hb).2.2.2.1.mpr
    (Or.inl (by norm_num))

/-- C9: an empty Order-category row set makes aggregation return the empty
table and `match_deliveroo_orders` terminate normally, annotating every
input row with the `"No Orders"` outcome instead of raising. -/
theorem c9_empty_orders (drRows : List DrRow) (dwhRows : List DwhRow)
    (h : orderRows drRows = []) :
    aggregate_order_values drRows = [] ∧
    match_deliveroo_orders drRows dwhRows = .noOrders (drRows.map (fun r =>
      { row := r, order_category := "No Orders", match_status := "N/A" })) := by
  constructor
  · unfold aggregate_order_values
    rw [h]
    rfl
  · unfold match_deliveroo_orders
    rw [h]
    rfl

/-- Witness for `c9_empty_orders`: one fee row, no order rows. -/
theorem c9_empty_orders_witness :
    aggregate_order_values [⟨"7", "Additional Fees", "", "S", none, none, 0, 0, 5⟩] = [] ∧
    match_deliveroo_orders [⟨"7", "Additional Fees", "", "S", none, none, 0, 0, 5⟩] [] =
      .noOrders [⟨⟨"7", "Additional Fees", "", "S", none, none, 0, 0, 5⟩,
        "No Orders", "N/A"⟩] :=
  c9_empty_orders [⟨"7", "Additional Fees", "", "S", none, none, 0, 0, 5⟩] []
    (by decide)

/-- The two same-day orders of the sorting scenario: the one listed first
carries the strictly later delivery timestamp. -/
def lateFirstOrder : DrRow :=
  ⟨"A", orderCategoryLabel, "1234", "StoreA", some 0, some 54000, 50, 0, 0⟩

def earlySecondOrder : DrRow :=
  ⟨"B", orderCategoryLabel, "1234", "StoreA", some 0, some 36000, 50, 0, 0⟩

/-- The single warehouse record both orders of the sorting scenario
compete for. -/
def contestedDwhRow : DwhRow :=
  ⟨0, "GP1", "1234", "StoreA", some 0, 50, some 0, some 1000, true⟩

unseal Rat.add Rat.inv Rat.mul Rat.sub in
/-- C2 (code bug): `agg_df_sorted = agg_df.sort_values("delivery_date")`
orders only by the date bucket, although the function's own docstring and
the step comment say "sort by timestamp (earliest first)".  For two orders
on the same date the input order is kept: here the order with delivery
timestamp 54000 is processed first and claims the only candidate, while
the order with the strictly earlier timestamp 36000 ends with
`NO_DWH_RECORD`. -/
theorem c2_sort_ignores_timestamp :
    orderTs [lateFirstOrder, earlySecondOrder] "B" = some 36000 ∧
    orderTs [lateFirstOrder, earlySecondOrder] "A" = some 54000 ∧
    (36000 : Int) < 54000 ∧
    (sortValuesByDeliveryDate
      (aggregate_order_values [lateFirstOrder, earlySecondOrder])).map
      (fun a => a.order_number) = ["A", "B"] ∧
    (lookupResult (runMatchLoop [lateFirstOrder, earlySecondOrder]
      [contestedDwhRow]).results "A").map
      (fun i => (i.matched, i.gp_order_id, i.match_status)) =
      some (true, some "GP1", "MATCHED") ∧
    (lookupResult (runMatchLoop [lateFirstOrder, earlySecondOrder]
      [contestedDwhRow]).results "B").map
      (fun i => (i.matched, i.match_status)) =
      some (false, "NO_DWH_RECORD") := by
  decide

/-- A matched order row whose net value 10 is below the reference value
12.5: the gap 2.5 is exactly 20% of the reference (not more), yet 25% of
the net value. -/
def reviewEdgeRow : AnnotatedRow :=
  ⟨⟨"1", orderCategoryLabel, "9", "S", some 0, some 0, 10, 0, 0⟩,
    "Matched", "MATCHED", "High", 10, 10, 0, some (25/2)⟩

unseal Rat.add Rat.inv Rat.mul Rat.sub in
/-- C3 (counterexample): the post-hoc check flags this matched pair with
`" - Review"` although its absolute variance does not exceed 20% of the
reference value — the code divides by the order's net value instead. -/
theorem c3_counterexample :
    (reviewStep [reviewEdgeRow]).map (fun r => r.match_confidence) =
      ["High - Review"] ∧
    ¬(ratAbs (reviewEdgeRow.net_sales_value -
        reviewEdgeRow.dwh_post_promo_sales_inc_vat.getD 0) >
      20/100 * reviewEdgeRow.dwh_post_promo_sales_inc_vat.getD 0) := by
  decide

/-- C3 (amended): when the DWH column exists, the post-hoc check appends
`" - Review"` to `match_confidence` exactly on matched rows with positive
net value whose absolute variance exceeds 20% of the order's **net value**
(not of the reference value); all other rows are unchanged. -/
theorem c3_review_by_net_value (rows : List AnnotatedRow)
    (h : hasDwhColumn rows = true) :
    reviewStep rows = rows.map (fun r =>
      if isMatchedCat r.order_category = true ∧ 0 < r.net_sales_value ∧
          20/100 * r.net_sales_value <
            ratAbs (r.net_sales_value - r.dwh_post_promo_sales_inc_vat.getD 0)
        then { r with match_confidence := r.match_confidence ++ " - Review" }
      else r) := by
  unfold reviewStep
  rw [if_pos h]
  refine List.map_congr_left fun r _ => ?_
  by_cases hc : isMatchedCat r.order_category = true ∧ 0 < r.net_sales_value ∧
      20/100 * r.net_sales_value <
        ratAbs (r.net_sales_value - r.dwh_post_promo_sales_inc_vat.getD 0)
  · rw [if_pos hc]
    have hflag : reviewFlag r = true := by
      unfold reviewFlag
      obtain ⟨h1, h2, h3⟩ := hc
      rw [h1]
      simp only [Bool.true_and, decide_eq_true_eq]
      rw [if_pos h2, gt_iff_lt, div_mul_eq_mul_div, lt_div_iff h2]
      linarith
    rw [hflag]
    simp
  · rw [if_neg hc]
    have hflag : reviewFlag r = false := by
      unfold reviewFlag
      by_cases h1 : isMatchedCat r.order_category = true
      · rw [h1]
        simp only [Bool.true_and]
        by_cases h2 : 0 < r.net_sales_value
        · rw [if_pos h2]
          rw [decide_eq_false_iff_not]
          intro h3
          apply hc
          refine ⟨h1, h2, ?_⟩
          rw [gt_iff_lt, div_mul_eq_mul_div, lt_div_iff h2] at h3
          linarith
        · rw [if_neg h2]
          simp
      · simp only [Bool.not_eq_true] at h1
        rw [h1]
        simp
    rw [hflag]
    simp

unseal Rat.add Rat.inv Rat.mul Rat.sub in
/-- Witness for `c3_review_by_net_value` on the concrete flagged row. -/
theorem c3_review_by_net_value_witness :
    reviewStep [reviewEdgeRow] = [reviewEdgeRow].map (fun r =>
      if isMatchedCat r.order_category = true ∧ 0 < r.net_sales_value ∧
          20/100 * r.net_sales_value <
            ratAbs (r.net_sales_value - r.dwh_post_promo_sales_inc_vat.getD 0)
        then { r with match_confidence := r.match_confidence ++ " - Review" }
      else r) :=
  c3_review_by_net_value [reviewEdgeRow] (by decide)

/-- The matched parent order row of the linked-row scenario: net value 100
against reference value 100.03, a `Rounding` variance. -/
def linkedParentRow : AnnotatedRow :=
  ⟨⟨"1", orderCategoryLabel, "9", "S", some 0, some 0, 100, 0, 0⟩,
    "Matched", "MATCHED", "High", 100, 100, 0, some (10003/100)⟩

/-- The fee row linked to `linkedParentRow`, carrying the propagated
parent values. -/
def linkedFeeRow : AnnotatedRow :=
  ⟨⟨"1", feeCategoryLabel, "9", "S", some 0, none, 0, 0, 0⟩,
    "Linked to Order", "LINKED", "Inherited", 100, 100, 0, some (10003/100)⟩

unseal Rat.add Rat.inv Rat.mul Rat.sub in
/-- C4 (counterexample): the parent order is classified `Rounding`, but
the linked row's `variance_explanation` is the fixed marker
`"See Parent Order"`, not the parent's label. -/
theorem c4_counterexample :
    (calculate_variances [linkedParentRow, linkedFeeRow]).map
      (fun r => r.variance_explanation) = ["Rounding", "See Parent Order"] ∧
    ("See Parent Order" : String) ≠ "Rounding" := by
  decide

/-- C4 (amended): a Fee/Payment row of a matched order is propagated with
`order_category = "Linked to Order"` and inherits the parent's aggregated
net value and matched reference value; the variance step then gives every
linked row the fixed markers `matched_amount = "Linked"` and
`variance_explanation = "See Parent Order"` (deferring to the parent)
instead of copying the parent's Exact/Rounding/Minor/Unexplained label,
while its numeric `amount_variance`, computed from the inherited values,
equals the parent's variance. -/
theorem c4_linked_rows (results : List (String × MatchInfo)) (r : DrRow)
    (info : MatchInfo) (hl : lookupResult results r.order_number = some info)
    (hm : info.matched = true)
    (hc : (r.accounting_category == orderCategoryLabel) = false) :
    (propagateRow results r).order_category = "Linked to Order" ∧
    (propagateRow results r).net_sales_value = info.net_sales_value ∧
    (propagateRow results r).dwh_post_promo_sales_inc_vat = info.dwh_value ∧
    (∀ rows : List AnnotatedRow, hasDwhColumn rows = true →
      ∀ x ∈ calculate_variances rows,
        x.base.order_category = "Linked to Order" →
        x.matched_amount = "Linked" ∧
        x.variance_explanation = "See Parent Order" ∧
        x.amount_variance = amountVariance x.base.net_sales_value
          (x.base.dwh_post_promo_sales_inc_vat.getD 0)) ∧
    (∀ rp rl : AnnotatedRow,
      rp.net_sales_value = rl.net_sales_value →
      rp.dwh_post_promo_sales_inc_vat = rl.dwh_post_promo_sales_inc_vat →
      isMatchedCat rp.order_category = true →
      rl.order_category = "Linked to Order" →
      (classifyRow rl).amount_variance = (classifyRow rp).amount_variance) := by
  have hprop : propagateRow results r =
      { row := r
        order_category := "Linked to Order"
        match_status := "LINKED"
        match_confidence := "Inherited"
        net_sales_value := info.net_sales_value
        gross_order_value := info.gross_order_value
        unavailable_items_adjustment := info.unavailable_items_adjustment
        dwh_post_promo_sales_inc_vat := info.dwh_value } := by
    unfold propagateRow
    rw [hl]
    simp only [hm, if_true]
    rw [if_neg (by simp [hc])]
  have hlinkedClassify : ∀ x : AnnotatedRow,
      x.order_category = "Linked to Order" →
      (classifyRow x).matched_amount = "Linked" ∧
      (classifyRow x).variance_explanation = "See Parent Order" ∧
      (classifyRow x).amount_variance = amountVariance x.net_sales_value
        (x.dwh_post_promo_sales_inc_vat.getD 0) := by
    intro x hx
    have hnm : isMatchedCat x.order_category = false := by
      rw [hx]
      decide
    unfold classifyRow
    rw [hnm, hx]
    refine ⟨rfl, rfl, ?_⟩
    simp
  refine ⟨?_, ?_, ?_, ?_, ?_⟩
  · rw [hprop]
  · rw [hprop]
  · rw [hprop]
  · intro rows hdwh x hx hxcat
    unfold calculate_variances at hx
    rw [if_pos hdwh] at hx
    obtain ⟨y, _, rfl⟩ := List.mem_map.mp hx
    exact hlinkedClassify y hxcat
  · intro rp rl hnet hdwh hpm hlcat
    have h1 := (hlinkedClassify rl hlcat).2.2
    have h2 : (classifyRow rp).amount_variance =
        amountVariance rp.net_sales_value
          (rp.dwh_post_promo_sales_inc_vat.getD 0) := by
      unfold classifyRow
      rw [hpm]
      simp
    rw [h1, h2, hnet, hdwh]

unseal Rat.add Rat.inv Rat.mul Rat.sub in
/-- Witness for `c4_linked_rows` on a concrete linked fee row of a
matched order. -/
theorem c4_linked_rows_witness :
    (propagateRow [("1",
      { matched := true, gp_order_id := some "G", dwh_value := some (10003/100),
        order_category := "Matched", match_status := "MATCHED",
        match_confidence := "High", cross_midnight := false,
        net_sales_value := 100, gross_order_value := 100,
        unavailable_items_adjustment := 0 })]
      ⟨"1", feeCategoryLabel, "9", "S", some 0, none, 0, 0, 0⟩).order_category =
      "Linked to Order" ∧
    (classifyRow linkedFeeRow).amount_variance =
      (classifyRow linkedParentRow).amount_variance :=
  ⟨(c4_linked_rows _ ⟨"1", feeCategoryLabel, "9", "S", some 0, none, 0, 0, 0⟩
      { matched := true, gp_order_id := some "G", dwh_value := some (10003/100),
        order_category := "Matched", match_status := "MATCHED",
        match_confidence := "High", cross_midnight := false,
        net_sales_value := 100, gross_order_value := 100,
        unavailable_items_adjustment := 0 }
      (by decide) rfl (by decide)).1,
   (c4_linked_rows [("1",
      { matched := true, gp_order_id := some "G", dwh_value := some (10003/100),
        order_category := "Matched", match_status := "MATCHED",
        match_confidence := "High", cross_midnight := false,
        net_sales_value := 100, gross_order_value := 100,
        unavailable_items_adjustment := 0 })]
      ⟨"1", feeCategoryLabel, "9", "S", some 0, none, 0, 0, 0⟩
      { matched := true, gp_order_id := some "G", dwh_value := some (10003/100),
        order_category := "Matched", match_status := "MATCHED",
        match_confidence := "High", cross_midnight := false,
        net_sales_value := 100, gross_order_value := 100,
        unavailable_items_adjustment := 0 }
      (by decide) rfl (by decide)).2.2.2.2 linkedParentRow linkedFeeRow
      rfl rfl (by decide) rfl⟩

/-- Two-decimal currency amounts: an integer number of hundredths. -/
def IsCents (q : Rat) : Prop := ∃ n : Int, q = n / 100

lemma rat_floor_eq_intFloor (q : Rat) : q.floor = ⌊q⌋ := rfl

lemma roundHalfEven_intCast (n : Int) : roundHalfEven (n : Rat) = n := by
  unfold roundHalfEven
  have hf : ((n : Rat)).floor = n := by
    rw [rat_floor_eq_intFloor, Int.floor_intCast]
  rw [hf]
  rw [if_pos]
  rw [sub_self]
  norm_num

lemma round2_cents {q : Rat} (h : IsCents q) : round2 q = q := by
  obtain ⟨n, rfl⟩ := h
  unfold round2
  rw [show (n : Rat) / 100 * 100 = (n : Rat) by field_simp]
  rw [roundHalfEven_intCast]

lemma IsCents.sub {a b : Rat} (ha : IsCents a) (hb : IsCents b) :
    IsCents (a - b) := by
  obtain ⟨m, rfl⟩ := ha
  obtain ⟨n, rfl⟩ := hb
  exact ⟨m - n, by push_cast; ring⟩

/-- Severity order of the variance buckets, for the monotonicity
statement. -/
def severityRank (s : String) : Nat :=
  if s = "Exact Match" then 0
  else if s = "Rounding" then 1
  else if s = "Minor Variance" then 2
  else 3

lemma severityRank_varianceLabels (a : Rat) :
    severityRank (varianceLabels a).2 =
      if a < 2/100 then 0 else if a < 10/100 then 1 else if a < 1 then 2
      else 3 := by
  unfold varianceLabels
  split_ifs <;> decide

unseal Rat.add Rat.inv Rat.mul Rat.sub in
/-- C7: on matched rows the variance is the (two-decimal) difference of
net value and reference value; the explanation label is a function of the
absolute variance with the fixed cut-offs 0.02 / 0.10 / 1.00; the spec's
scenario 100.00 vs 100.03 gives variance −0.03 labelled `Rounding`; and a
larger absolute variance never gets a less severe label. -/
theorem c7_variance_classification :
    (∀ net ref : Rat, IsCents net → IsCents ref →
      amountVariance net ref = net - ref) ∧
    (∀ r : AnnotatedRow, isMatchedCat r.order_category = true →
      (classifyRow r).amount_variance = amountVariance r.net_sales_value
        (r.dwh_post_promo_sales_inc_vat.getD 0) ∧
      (classifyRow r).variance_explanation =
        (varianceLabels (ratAbs ((classifyRow r).amount_variance))).2) ∧
    (∀ a : Rat, ((varianceLabels a).2 = "Exact Match" ↔ a < 2/100) ∧
      ((varianceLabels a).2 = "Rounding" ↔ 2/100 ≤ a ∧ a < 10/100) ∧
      ((varianceLabels a).2 = "Minor Variance" ↔ 10/100 ≤ a ∧ a < 1) ∧
      ((varianceLabels a).2 = "Unexplained Variance" ↔ 1 ≤ a)) ∧
    (amountVariance 100 (10003/100) = -(3/100) ∧
      (varianceLabels (ratAbs (amountVariance 100 (10003/100)))).2 =
        "Rounding") ∧
    (∀ v1 v2 : Rat, ratAbs v1 ≤ ratAbs v2 →
      severityRank (varianceLabels (ratAbs v1)).2 ≤
        severityRank (varianceLabels (ratAbs v2)).2) := by
  refine ⟨?_, ?_, ?_, ?_, ?_⟩
  · intro net ref hn hr
    unfold amountVariance
    rw [round2_cents hn, round2_cents hr, round2_cents (hn.sub hr)]
  · intro r hm
    unfold classifyRow
    rw [hm]
    exact ⟨by simp, by simp⟩
  · intro a
    unfold varianceLabels
    split_ifs with h1 h2 h3 <;>
      refine ⟨?_, ?_, ?_, ?_⟩ <;>
      constructor <;>
      intro h <;>
      first
        | rfl
        | (exact absurd h (by decide))
        | (exact h1)
        | (exact ⟨not_lt.mp h1, h2⟩)
        | (exact ⟨not_lt.mp h2, h3⟩)
        | (exact not_lt.mp h3)
        | (exfalso
           first
             | linarith [h.1, h.2]
             | linarith)
  · constructor
    · decide
    · decide
  · intro v1 v2 h
    rw [severityRank_varianceLabels, severityRank_varianceLabels]
    split_ifs <;>
      first
        | omega
        | (exfalso; linarith)

unseal Rat.add Rat.inv Rat.mul Rat.sub in
/-- Witness for `c7_variance_classification` at the spec's scenario. -/
theorem c7_variance_classification_witness :
    amountVariance 100 (10003/100) = 100 - 10003/100 ∧
    ((varianceLabels (3/100)).2 = "Rounding" ↔
      2/100 ≤ (3/100 : Rat) ∧ (3/100 : Rat) < 10/100) ∧
    severityRank (varianceLabels (ratAbs (-(3/100) : Rat))).2 ≤
      severityRank (varianceLabels (ratAbs (2 : Rat))).2 :=
  ⟨c7_variance_classification.1 100 (10003/100) ⟨10000, by norm_num⟩
      ⟨10003, by norm_num⟩,
   (c7_variance_classification.2.2.1 (3/100)).2.1,
   c7_variance_classification.2.2.2.2 (-(3/100)) 2 (by decide)⟩

/-- The `gp_order_id`s of the accepted matches, in acceptance order. -/
def acceptedIds (results : List (String × MatchInfo)) : List String :=
  results.filterMap (fun p => p.2.gp_order_id)

lemma mem_availableFor_not_used {dwh : List DwhRow} {used : List String}
    {last4 mfc : String} {d : Option Int} {c : Candidate}
    (h : c ∈ availableFor dwh used last4 mfc d) : c.gp_order_id ∉ used := by
  unfold availableFor at h
  have h2 := (List.mem_filter.mp h).2
  simpa using h2

lemma mem_availableChosen_not_used {dwh : List DwhRow} {used : List String}
    {a : AggRow} {c : Candidate} (h : c ∈ availableChosen dwh used a) :
    c.gp_order_id ∉ used := by
  unfold availableChosen at h
  split_ifs at h <;> exact mem_availableFor_not_used h

lemma acceptedIds_append (res : List (String × MatchInfo))
    (p : String × MatchInfo) :
    acceptedIds (res ++ [p]) = acceptedIds res ++ (p.2.gp_order_id).toList := by
  rcases hg : p.2.gp_order_id with _ | i <;>
    simp [acceptedIds, List.filterMap_append, List.filterMap_cons, hg,
      Option.toList]

lemma stepOrder_inv (dwh : List DwhRow) (rows : List DrRow) (st : MatchState)
    (a : AggRow) (h1 : (acceptedIds st.results).Nodup)
    (h2 : ∀ i ∈ acceptedIds st.results, i ∈ st.used) :
    (acceptedIds (stepOrder dwh rows st a).results).Nodup ∧
    ∀ i ∈ acceptedIds (stepOrder dwh rows st a).results,
      i ∈ (stepOrder dwh rows st a).used := by
  unfold stepOrder commitOutcome
  rcases ho : matchOutcome (orderTs rows a.order_number) a.net_sales_value
      (crossMidnightFlag dwh st.used a) (availableChosen dwh st.used a)
    with ⟨_ | c, status⟩
  · simp only
    rw [acceptedIds_append]
    simp only [Option.toList_none, List.append_nil]
    exact ⟨h1, h2⟩
  · have hmem : c ∈ availableChosen dwh st.used a := matchOutcome_mem ho
    have hnew : c.gp_order_id ∉ st.used := mem_availableChosen_not_used hmem
    simp only
    rw [acceptedIds_append]
    simp only [Option.toList_some]
    constructor
    · rw [List.nodup_append]
      refine ⟨h1, List.nodup_singleton _, ?_⟩
      intro i hi hic
      rw [List.mem_singleton] at hic
      subst hic
      exact hnew (h2 _ hi)
    · intro i hi
      rcases List.mem_append.mp hi with hi | hi
      · exact List.mem_append.mpr (Or.inl (h2 i hi))
      · rw [List.mem_singleton] at hi
        subst hi
        exact List.mem_append.mpr (Or.inr (List.mem_singleton_self _))

lemma matchLoop_inv (dwh : List DwhRow) (rows : List DrRow) :
    ∀ (l : List AggRow) (st : MatchState),
      (acceptedIds st.results).Nodup →
      (∀ i ∈ acceptedIds st.results, i ∈ st.used) →
      (acceptedIds (l.foldl (stepOrder dwh rows) st).results).Nodup ∧
      ∀ i ∈ acceptedIds (l.foldl (stepOrder dwh rows) st).results,
        i ∈ (l.foldl (stepOrder dwh rows) st).used := by
  intro l
  induction l with
  | nil => exact fun st h1 h2 => ⟨h1, h2⟩
  | cons a l ih =>
    intro st h1 h2
    have hstep := stepOrder_inv dwh rows st a h1 h2
    exact ih (stepOrder dwh rows st a) hstep.1 hstep.2

/-- C1: across one whole run of the match resolver, every warehouse
record is claimed at most once — the `gp_order_id`s of the accepted
matches are pairwise distinct, because each acceptance enters the used-set
and both the same-day and previous-day lookups exclude used ids. -/
theorem c1_reference_uniqueness (drRows : List DrRow)
    (dwhRows : List DwhRow) :
    (acceptedIds (runMatchLoop drRows dwhRows).results).Nodup := by
  unfold runMatchLoop
  exact (matchLoop_inv dwhRows drRows _ ⟨[], []⟩ List.nodup_nil
    (fun i hi => absurd hi (List.not_mem_nil i))).1

/-- Sum of `net_sales_value` over all annotated output rows. -/
def outputNetSum (rows : List AnnotatedRow) : Rat :=
  (rows.map (fun r => r.net_sales_value)).sum

/-- Sum of `net_sales_value` over the annotated Order-category output
rows only. -/
def outputOrderNetSum (rows : List AnnotatedRow) : Rat :=
  ((rows.filter (fun r => r.row.accounting_category == orderCategoryLabel)).map
    (fun r => r.net_sales_value)).sum

/-- Following the spec's words: the "same monetary field computed directly
from the raw input rows" — every Order row contributes
`order_value_gross + marketing_offer_discount` and every Fee row its
`adjustment_gross`. -/
def specRawNetTotal (rows : List DrRow) : Rat :=
  (((orderRows rows).map
      (fun o => o.order_value_gross + o.marketing_offer_discount)).sum) +
    ((feeRows rows).map (fun f => f.adjustment_gross)).sum

/-- Sum of `adjustment_gross` over the fee rows whose `order_number`
belongs to one of the given order rows. -/
def parentedFeeSumBy (fees : List DrRow) (os : List DrRow) : Rat :=
  ((fees.filter (fun f =>
      os.any (fun o => f.order_number == o.order_number))).map
    (fun f => f.adjustment_gross)).sum

/-- The input of the conservation counterexample: one order row (gross 10)
and one fee row (adjustment −2) for the same order number. -/
def consOrderRow : DrRow :=
  ⟨"1", orderCategoryLabel, "9", "S", some 0, some 0, 10, 0, 0⟩

def consFeeRow : DrRow :=
  ⟨"1", feeCategoryLabel, "9", "S", some 0, none, 0, 0, -2⟩

def consDwhRow : DwhRow := ⟨0, "G", "9", "S", some 0, 8, some 0, some 100, true⟩

unseal Rat.add Rat.inv Rat.mul Rat.sub in
/-- C8 (counterexample): the order aggregates to net 8 and matches; its
linked fee row also carries net 8, so the sum of `net_sales_value` over
all annotated output rows is 16, while the same field computed directly
from the raw rows is 10 + (−2) = 8 — linked rows duplicate the parent's
net value. -/
theorem c8_counterexample :
    match_deliveroo_orders [consOrderRow, consFeeRow] [consDwhRow] =
      .full (annotatedRowsOf [consOrderRow, consFeeRow] [consDwhRow]) ∧
    outputNetSum (annotatedRowsOf [consOrderRow, consFeeRow] [consDwhRow]) = 16 ∧
    specRawNetTotal [consOrderRow, consFeeRow] = 8 ∧
    outputNetSum (annotatedRowsOf [consOrderRow, consFeeRow] [consDwhRow]) ≠
      specRawNetTotal [consOrderRow, consFeeRow] := by
  decide

lemma insertByDate_perm (a : AggRow) (l : List AggRow) :
    (insertByDate a l).Perm (a :: l) := by
  induction l with
  | nil => exact List.Perm.refl _
  | cons b bs ih =>
    unfold insertByDate
    split_ifs
    · exact ((ih.cons b).trans (List.Perm.swap a b bs))
    · exact List.Perm.refl _

lemma sortValuesByDeliveryDate_perm (l : List AggRow) :
    (sortValuesByDeliveryDate l).Perm l := by
  induction l with
  | nil => exact List.Perm.refl _
  | cons a as ih =>
    unfold sortValuesByDeliveryDate
    exact (insertByDate_perm a _).trans (ih.cons a)

/-- Projection of a stored match result onto (key, net value). -/
def resultKeyNet (p : String × MatchInfo) : String × Rat :=
  (p.1, p.2.net_sales_value)

/-- Projection of an aggregated row onto (key, net value). -/
def aggKeyNet (a : AggRow) : String × Rat := (a.order_number, a.net_sales_value)

lemma commitOutcome_proj (st : MatchState) (a : AggRow) (cm : Bool)
    (oc : Option Candidate × String) :
    ((commitOutcome st a cm oc).results).map resultKeyNet =
      st.results.map resultKeyNet ++ [aggKeyNet a] := by
  unfold commitOutcome
  rcases oc with ⟨_ | c, status⟩ <;>
    simp [resultKeyNet, aggKeyNet]

lemma matchLoop_proj (dwh : List DwhRow) (rows : List DrRow) :
    ∀ (l : List AggRow) (st : MatchState),
      ((l.foldl (stepOrder dwh rows) st).results).map resultKeyNet =
        st.results.map resultKeyNet ++ l.map aggKeyNet := by
  intro l
  induction l with
  | nil => intro st; simp
  | cons a l ih =>
    intro st
    rw [List.foldl_cons, ih]
    unfold stepOrder
    rw [commitOutcome_proj]
    simp

/-- Key/value lookup on the projected association list; mirrors
`lookupResult` after projection. -/
def lookupKeyNet (q : List (String × Rat)) (n : String) : Option Rat :=
  ((q.filter (fun p => p.1 == n)).getLast?).map (fun p => p.2)

lemma getLast?_map {α β : Type} (f : α → β) (l : List α) :
    (l.map f).getLast? = l.getLast?.map f := by
  induction l with
  | nil => rfl
  | cons a l ih =>
    rcases l with _ | ⟨b, t⟩
    · rfl
    · simpa using ih

lemma lookupResult_proj (results : List (String × MatchInfo)) (n : String) :
    (lookupResult results n).map (fun i => i.net_sales_value) =
      lookupKeyNet (results.map resultKeyNet) n := by
  unfold lookupResult lookupKeyNet
  have hcomm : (results.map resultKeyNet).filter (fun p => p.1 == n) =
      (results.filter (fun p => p.1 == n)).map resultKeyNet := by
    induction results with
    | nil => rfl
    | cons p ps ih =>
      by_cases hp : (p.1 == n) = true
      · simp [List.filter_cons, resultKeyNet, hp, ih]
      · simp [List.filter_cons, resultKeyNet, hp, ih]
  rw [hcomm, getLast?_map, Option.map_map, Option.map_map]
  rfl

lemma lookupKeyNet_eq_of_mem {q : List (String × Rat)}
    (hnd : (q.map Prod.fst).Nodup) {n : String} {x : Rat}
    (hm : (n, x) ∈ q) : lookupKeyNet q n = some x := by
  induction q with
  | nil => exact absurd hm (List.not_mem_nil _)
  | cons p ps ih =>
    rw [List.map_cons, List.nodup_cons] at hnd
    rcases List.mem_cons.mp hm with rfl | hm'
    · have hrest : ps.filter (fun p => p.1 == n) = [] := by
        rw [List.filter_eq_nil]
        intro b hb hbn
        apply hnd.1
        rw [List.mem_map]
        refine ⟨b, hb, ?_⟩
        exact (by simpa using hbn : b.1 = n)
      unfold lookupKeyNet
      rw [List.filter_cons, if_pos (by simp), hrest]
      rfl
    · have hne : (p.1 == n) = false := by
        rw [beq_eq_false_iff_ne]
        intro hcontra
        apply hnd.1
        rw [List.mem_map]
        exact ⟨(n, x), hm', hcontra.symm⟩
      unfold lookupKeyNet at ih ⊢
      rw [List.filter_cons, if_neg (by simp [hne])]
      exact ih hnd.2 hm'

/-- The net value an order row contributes: its gross value plus
marketing discount plus the summed fee adjustments for its order
number. -/
def perOrderNet (rows : List DrRow) (o : DrRow) : Rat :=
  o.order_value_gross + o.marketing_offer_discount +
    feeSumOver (feeRows rows) o.order_number

lemma aggregate_proj (rows : List DrRow) :
    (aggregate_order_values rows).map aggKeyNet =
      (orderRows rows).map (fun o => (o.order_number, perOrderNet rows o)) := by
  unfold aggregate_order_values
  rw [List.map_map]
  rfl

lemma runMatchLoop_proj (drRows : List DrRow) (dwhRows : List DwhRow) :
    ((runMatchLoop drRows dwhRows).results).map resultKeyNet =
      (sortValuesByDeliveryDate (aggregate_order_values drRows)).map
        aggKeyNet := by
  unfold runMatchLoop
  rw [matchLoop_proj]
  simp

lemma sorted_keys_nodup (rows : List DrRow)
    (hnd : ((orderRows rows).map (fun o => o.order_number)).Nodup) :
    ((sortValuesByDeliveryDate (aggregate_order_values rows)).map
      (fun a => a.order_number)).Nodup := by
  have hperm := (sortValuesByDeliveryDate_perm
    (aggregate_order_values rows)).map (fun a : AggRow => a.order_number)
  rw [hperm.nodup_iff]
  unfold aggregate_order_values
  rw [List.map_map]
  exact hnd

lemma lookup_net_eq (drRows : List DrRow) (dwhRows : List DwhRow)
    (hnd : ((orderRows drRows).map (fun o => o.order_number)).Nodup)
    (o : DrRow) (ho : o ∈ orderRows drRows) :
    (lookupResult (runMatchLoop drRows dwhRows).results o.order_number).map
      (fun i => i.net_sales_value) = some (perOrderNet drRows o) := by
  rw [lookupResult_proj, runMatchLoop_proj]
  apply lookupKeyNet_eq_of_mem
  · rw [List.map_map]
    exact sorted_keys_nodup drRows hnd
  · have hm : (o.order_number, perOrderNet drRows o) ∈
        (aggregate_order_values drRows).map aggKeyNet := by
      rw [aggregate_proj, List.mem_map]
      exact ⟨o, ho, rfl⟩
    exact ((sortValuesByDeliveryDate_perm
      (aggregate_order_values drRows)).map aggKeyNet).mem_iff.mpr hm

lemma propagateRow_row (results : List (String × MatchInfo)) (r : DrRow) :
    (propagateRow results r).row = r := by
  unfold propagateRow
  split
  · split_ifs <;> rfl
  · rfl

lemma propagateRow_net {results : List (String × MatchInfo)} {r : DrRow}
    {info : MatchInfo} (h : lookupResult results r.order_number = some info) :
    (propagateRow results r).net_sales_value = info.net_sales_value := by
  unfold propagateRow
  split
  next info' heq =>
    obtain rfl := Option.some.inj (h.symm.trans heq)
    split_ifs <;> rfl
  next heq =>
    rw [h] at heq
    exact absurd heq (by simp)

lemma outputOrderNetSum_map (g : AnnotatedRow → AnnotatedRow)
    (hrow : ∀ r, (g r).row = r.row)
    (hnet : ∀ r, (g r).net_sales_value = r.net_sales_value)
    (rows : List AnnotatedRow) :
    outputOrderNetSum (rows.map g) = outputOrderNetSum rows := by
  induction rows with
  | nil => rfl
  | cons r rs ih =>
    unfold outputOrderNetSum at ih ⊢
    rw [List.map_cons, List.filter_cons, List.filter_cons]
    by_cases hc : (r.row.accounting_category == orderCategoryLabel) = true
    · rw [if_pos (by rw [hrow]; exact hc), if_pos hc]
      rw [List.map_cons, List.map_cons, List.sum_cons, List.sum_cons, hnet, ih]
    · rw [if_neg (by rw [hrow]; exact hc), if_neg hc]
      exact ih

lemma outputOrderNetSum_reviewStep (rows : List AnnotatedRow) :
    outputOrderNetSum (reviewStep rows) = outputOrderNetSum rows := by
  unfold reviewStep
  split_ifs
  · exact outputOrderNetSum_map _
      (fun r => by unfold reviewFlag; split_ifs <;> rfl)
      (fun r => by unfold reviewFlag; split_ifs <;> rfl) rows
  · rfl

lemma outputOrderNetSum_propagate (results : List (String × MatchInfo))
    (rows : List DrRow) :
    outputOrderNetSum (rows.map (propagateRow results)) =
      ((orderRows rows).map
        (fun o => (propagateRow results o).net_sales_value)).sum := by
  unfold outputOrderNetSum orderRows
  induction rows with
  | nil => rfl
  | cons r rs ih =>
    rw [List.map_cons, List.filter_cons, List.filter_cons]
    by_cases hc : (r.accounting_category == orderCategoryLabel) = true
    · rw [if_pos (by rw [propagateRow_row]; exact hc), if_pos hc]
      rw [List.map_cons, List.map_cons, List.sum_cons, List.sum_cons, ih]
    · rw [if_neg (by rw [propagateRow_row]; exact hc), if_neg hc]
      exact ih

lemma sum_map_add {α : Type} (f g : α → Rat) (l : List α) :
    (l.map (fun x => f x + g x)).sum = (l.map f).sum + (l.map g).sum := by
  induction l with
  | nil => simp
  | cons a l ih =>
    simp only [List.map_cons, List.sum_cons, ih]
    ring

lemma bool_eq_false {b : Bool} (h : ¬(b = true)) : b = false := by
  cases b <;> simp_all

lemma sum_filter_or_disjoint (fees : List DrRow) (p q : DrRow → Bool)
    (hd : ∀ f, p f = true → q f = false) :
    ((fees.filter (fun f => p f || q f)).map
      (fun f => f.adjustment_gross)).sum =
      ((fees.filter p).map (fun f => f.adjustment_gross)).sum +
      ((fees.filter q).map (fun f => f.adjustment_gross)).sum := by
  induction fees with
  | nil => simp
  | cons f fs ih =>
    rw [List.filter_cons, List.filter_cons, List.filter_cons]
    by_cases hp : p f = true
    · have hq : q f = false := hd f hp
      rw [if_pos (by simp [hp]), if_pos hp, if_neg (by simp [hq])]
      simp only [List.map_cons, List.sum_cons]
      rw [ih]
      ring
    · have hp' : p f = false := bool_eq_false hp
      by_cases hq : q f = true
      · rw [if_pos (by simp [hq]), if_neg hp, if_pos hq]
        simp only [List.map_cons, List.sum_cons]
        rw [ih]
        ring
      · have hq' : q f = false := bool_eq_false hq
        rw [if_neg (by simp [hp', hq']), if_neg hp, if_neg hq]
        exact ih

lemma feeSum_partition (fees : List DrRow) :
    ∀ os : List DrRow, ((os.map (fun o => o.order_number)).Nodup) →
      ((os.map (fun o => feeSumOver fees o.order_number)).sum) =
        parentedFeeSumBy fees os := by
  intro os
  induction os with
  | nil =>
    intro _
    simp [parentedFeeSumBy]
  | cons o os ih =>
    intro hnd
    rw [List.map_cons, List.nodup_cons] at hnd
    rw [List.map_cons, List.sum_cons, ih hnd.2]
    unfold parentedFeeSumBy feeSumOver
    rw [show (fun f : DrRow =>
        (o :: os).any (fun o' => f.order_number == o'.order_number)) =
      (fun f : DrRow => (f.order_number == o.order_number) ||
        os.any (fun o' => f.order_number == o'.order_number)) from
      funext (fun f => by rw [List.any_cons])]
    rw [sum_filter_or_disjoint fees
      (fun f => f.order_number == o.order_number)
      (fun f => os.any (fun o' => f.order_number == o'.order_number))]
    intro f hp
    have hfo : f.order_number = o.order_number := by simpa using hp
    apply bool_eq_false
    intro hq
    rw [List.any_eq_true] at hq
    obtain ⟨o', ho', heq⟩ := hq
    apply hnd.1
    rw [List.mem_map]
    refine ⟨o', ho', ?_⟩
    have : f.order_number = o'.order_number := by simpa using heq
    rw [← this, hfo]

/-- C8 (amended): counting each order's aggregated net value once — on its
Order-category output row — conservation holds: for pairwise distinct
order numbers, the sum of `net_sales_value` over the annotated
Order-category rows equals the raw orders' `gross + marketing discount`
plus the raw fee adjustments that have a parent order; linked rows repeat
the parent's net value and standalone adjustments are zeroed, so the sum
over all rows differs exactly by those duplications/omissions. -/
theorem c8_conservation_per_order (drRows : List DrRow)
    (dwhRows : List DwhRow)
    (hnd : ((orderRows drRows).map (fun o => o.order_number)).Nodup) :
    outputOrderNetSum (annotatedRowsOf drRows dwhRows) =
      (((orderRows drRows).map
        (fun o => o.order_value_gross + o.marketing_offer_discount)).sum) +
        parentedFeeSumBy (feeRows drRows) (orderRows drRows) ∧
    (orderRows drRows ≠ [] →
      match_deliveroo_orders drRows dwhRows =
        .full (annotatedRowsOf drRows dwhRows)) := by
  constructor
  · unfold annotatedRowsOf
    rw [outputOrderNetSum_reviewStep, outputOrderNetSum_propagate]
    have hnet : ∀ o ∈ orderRows drRows,
        (propagateRow (runMatchLoop drRows dwhRows).results o).net_sales_value
          = perOrderNet drRows o := by
      intro o ho
      have hl := lookup_net_eq drRows dwhRows hnd o ho
      rcases hres : lookupResult (runMatchLoop drRows dwhRows).results
          o.order_number with _ | info
      · rw [hres] at hl
        simp at hl
      · rw [hres] at hl
        simp only [Option.map_some'] at hl
        rw [propagateRow_net hres, Option.some.inj hl]
    rw [List.map_congr_left hnet]
    unfold perOrderNet
    rw [sum_map_add (fun o : DrRow =>
        o.order_value_gross + o.marketing_offer_discount)
      (fun o : DrRow => feeSumOver (feeRows drRows) o.order_number)]
    rw [feeSum_partition (feeRows drRows) (orderRows drRows) hnd]
  · intro hne
    unfold match_deliveroo_orders
    rw [if_neg (by simpa [List.isEmpty_iff] using hne)]

unseal Rat.add Rat.inv Rat.mul Rat.sub in
/-- Witness for `c8_conservation_per_order` on the two-row input of the
counterexample: the Order-row sum is 8 = 10 + (−2). -/
theorem c8_conservation_per_order_witness :
    outputOrderNetSum (annotatedRowsOf [consOrderRow, consFeeRow] [consDwhRow]) =
      (((orderRows [consOrderRow, consFeeRow]).map
        (fun o => o.order_value_gross + o.marketing_offer_discount)).sum) +
        parentedFeeSumBy (feeRows [consOrderRow, consFeeRow])
          (orderRows [consOrderRow, consFeeRow]) ∧
    outputOrderNetSum (annotatedRowsOf [consOrderRow, consFeeRow] [consDwhRow]) = 8 :=
  ⟨(c8_conservation_per_order [consOrderRow, consFeeRow] [consDwhRow]
      (by decide)).1, by decide⟩

end DR02
